import Mathlib

/-!
Storage: sanitisation and validation of expense records.

A shallow embedding of `internal/storage/storage.go`.

* A Go `string` is modelled by a Lean `String`, a sequence of Unicode scalar values: exactly
  the runes that the `regexp` and `strings` packages see when they decode well-formed UTF-8.
* The regular expressions `REInvalidChars` and `RERepeatingSpaces` are only ever used through
  `ReplaceAllString` with the replacement `" "`; they are embedded as the list functions
  `replaceInvalid` and `collapseSpaces`.
* A method with a pointer receiver that returns an `error` becomes a function returning the
  record as it is left behind together with `Option String` (`none` is Go's `nil` error, and
  `some msg` carries the message built by `fmt.Errorf`).
* A `[]string` is modelled by `List String`; a `nil` slice and an empty slice are both `[]`.
* The tables of letters and numbers of Go's `unicode` package are a parameter `U` of the
  sanitiser; every statement holds for the tables of every Go release.
* What the code reads from outside is passed in: `os.ReadFile` and `json.Unmarshal` as the
  functions `readFile` and `unmarshal`, `os.Getenv` as the function `getenv`, and the two
  backend constructors, which live in other files of the repository, as functions of the
  `SystemConfig`.
-/

namespace Storage

/-! ## Character classes -/

/-- Regexp class `\s` of Go's RE2 syntax: one of tab, line feed, form feed, carriage return
and the ASCII space (the vertical tab and the non-ASCII blanks are not in it). -/
def isPerlSpace (c : Char) : Bool :=
  c.toNat == 0x09 || c.toNat == 0x0A || c.toNat == 0x0C || c.toNat == 0x0D || c.toNat == 0x20

/-- Literal members of the class of `REInvalidChars`: full stop, comma, hyphen, apostrophe,
underscore, exclamation mark and the double quotation mark. -/
def isAllowedPunct (c : Char) : Bool :=
  c.toNat == 0x2E || c.toNat == 0x2C || c.toNat == 0x2D || c.toNat == 0x27 ||
  c.toNat == 0x5F || c.toNat == 0x21 || c.toNat == 0x22

/-- Go's `unicode.IsSpace`: in Latin-1 the runes tab, line feed, vertical tab, form feed,
carriage return, space, U+0085 and U+00A0; beyond it the runes with the White_Space
property. -/
def isSpace (c : Char) : Bool :=
  c.toNat == 0x09 || c.toNat == 0x0A || c.toNat == 0x0B || c.toNat == 0x0C ||
  c.toNat == 0x0D || c.toNat == 0x20 || c.toNat == 0x85 || c.toNat == 0xA0 ||
  c.toNat == 0x1680 || (0x2000 ≤ c.toNat && c.toNat ≤ 0x200A) || c.toNat == 0x2028 ||
  c.toNat == 0x2029 || c.toNat == 0x202F || c.toNat == 0x205F || c.toNat == 0x3000

/-- The rune is one of the ASCII letters `A` to `Z` and `a` to `z`. -/
def isAsciiLetter (c : Char) : Bool :=
  (0x41 ≤ c.toNat && c.toNat ≤ 0x5A) || (0x61 ≤ c.toNat && c.toNat ≤ 0x7A)

/-- The rune is one of the ASCII digits `0` to `9`. -/
def isAsciiDigit (c : Char) : Bool := 0x30 ≤ c.toNat && c.toNat ≤ 0x39

/-- The tables of Go's `unicode` package behind the regexp classes `\p{L}` and `\p{N}`. They
are not part of `storage.go` and they change with the Go release (each release ships the
tables of one version of the Unicode Character Database), so they are a parameter of the
sanitiser: `isLetter` decides the general category L and `isNumber` the general category N.
The four laws hold in every version of the database: below U+0080 the letters are `A` to `Z`
and `a` to `z` and the numbers are `0` to `9`, and the runes of `unicode.IsSpace` have the
general categories Cc, Zs, Zl and Zp, so none of them is a letter or a number. -/
structure UnicodeTables where
  isLetter : Char → Bool
  isNumber : Char → Bool
  letter_ascii : ∀ c : Char, c.toNat < 0x80 → isLetter c = isAsciiLetter c
  number_ascii : ∀ c : Char, c.toNat < 0x80 → isNumber c = isAsciiDigit c
  letter_not_space : ∀ c : Char, isSpace c = true → isLetter c = false
  number_not_space : ∀ c : Char, isSpace c = true → isNumber c = false

/-! ## The sanitiser -/

/-- A rune matched by `REInvalidChars`, the negated class of letters, numbers, `\s` and the
seven listed punctuation marks. -/
def isInvalidChar (U : UnicodeTables) (c : Char) : Bool :=
  !(U.isLetter c || U.isNumber c || isPerlSpace c || isAllowedPunct c)

/-- The call `REInvalidChars.ReplaceAllString(s, " ")`: the expression matches one rune at a
time, so every matching rune is replaced by one space and the others are kept. -/
def replaceInvalid (U : UnicodeTables) (l : List Char) : List Char :=
  l.map fun c => if isInvalidChar U c then ' ' else c

/-- Scan for `RERepeatingSpaces.ReplaceAllString(s, " ")`. The flag tells whether the rune
just read belonged to a match of `\s+`: the first rune of a maximal run emits the replacement
space, and the following runes of the same run emit nothing. -/
def collapseAux : Bool → List Char → List Char
  | _, [] => []
  | inRun, c :: cs =>
    if isPerlSpace c then
      if inRun then collapseAux true cs else ' ' :: collapseAux true cs
    else c :: collapseAux false cs

/-- The call `RERepeatingSpaces.ReplaceAllString(s, " ")`: every maximal run of `\s` runes is
replaced by one space. -/
def collapseSpaces (l : List Char) : List Char := collapseAux false l

/-- Go's `strings.TrimSpace`: the leading and the trailing runes that satisfy
`unicode.IsSpace` are removed. -/
def TrimSpace (l : List Char) : List Char :=
  (l.dropWhile isSpace).rdropWhile isSpace

/-- The function `SanitizeString`: replace the invalid runes by spaces, collapse the runs of
blanks, and trim. -/
def SanitizeString (U : UnicodeTables) (s : String) : String :=
  ⟨TrimSpace (collapseSpaces (replaceInvalid U s.data))⟩

/-! ## Records -/

/-- A Go `float64`: an IEEE 754 binary64 value given by its sign bit, its 11-bit biased
exponent and its 52-bit fraction. -/
structure Float64 where
  sign : Bool
  expo : Nat
  frac : Nat
  expo_lt : expo < 2048
  frac_lt : frac < 2 ^ 52
deriving DecidableEq

/-- The value is a NaN: the exponent is all ones and the fraction is not zero. -/
def Float64.isNaN (a : Float64) : Bool := a.expo == 2047 && a.frac != 0

/-- The Go comparison `a == 0`: true for the two zeros `+0` and `-0` only. -/
def Float64.eqZero (a : Float64) : Bool := a.expo == 0 && a.frac == 0

/-- The Go comparison `a < 0`: the sign bit is set and the value is neither a NaN nor `-0`. -/
def Float64.ltZero (a : Float64) : Bool := a.sign && !a.isNaN && !a.eqZero

/-- A Go `time.Time` as the instant it denotes: the seconds elapsed since January 1, year 1,
00:00:00 UTC and the nanoseconds within that second. -/
structure Time where
  sec : Int
  nsec : Nat
deriving DecidableEq

/-- The method `Time.IsZero`: the instant is January 1, year 1, 00:00:00 UTC. -/
def Time.IsZero (t : Time) : Bool := t.sec == 0 && t.nsec == 0

/-- The struct `Expense`. -/
structure Expense where
  ID : String
  RecurringID : String
  Name : String
  Tags : List String
  Category : String
  Amount : Float64
  Currency : String
  Date : Time
deriving DecidableEq

/-- The struct `RecurringExpense`; `Occurrences` is a Go `int`. -/
structure RecurringExpense where
  ID : String
  Name : String
  Amount : Float64
  Currency : String
  Tags : List String
  Category : String
  StartDate : Time
  Interval : String
  Occurrences : Int
deriving DecidableEq

/-! ## Validators -/

/-- The loop over `e.Tags` shared by both validators: starting from the `nil` slice, every
tag is sanitised and appended to `cleanedTags` unless it became empty. -/
def cleanTags (U : UnicodeTables) (tags : List String) : List String :=
  tags.foldl
    (fun cleanedTags tag =>
      let sanitizedTag := SanitizeString U tag
      if sanitizedTag ≠ "" then cleanedTags ++ [sanitizedTag] else cleanedTags)
    []

/-- The method `(e *Expense) Validate`: the expense as the call leaves it, and the error. -/
def Expense.Validate (U : UnicodeTables) (e : Expense) : Expense × Option String :=
  let e := { e with Name := SanitizeString U e.Name }
  if e.Name = "" then (e, some "expense 'name' cannot be empty")
  else if e.Category = "" then (e, some "expense 'category' cannot be empty")
  else if e.Amount.eqZero then (e, some "expense 'amount' cannot be 0")
  else
    let e := if 0 < e.Tags.length then { e with Tags := cleanTags U e.Tags } else e
    if e.Date.IsZero then (e, some "expense 'date' cannot be empty")
    else (e, none)

/-- The map literal `validIntervals` of `RecurringExpense.Validate`. -/
def validIntervals : List (String × Bool) :=
  [("daily", true), ("weekly", true), ("monthly", true), ("yearly", true)]

/-- The index expression `validIntervals[key]`: the stored value, or `false` for a key that is
absent from the map. -/
def validIntervalsAt (key : String) : Bool :=
  (validIntervals.lookup key).getD false

/-- The message of the invalid-interval error, built by `fmt.Errorf` from the interval. -/
def invalidIntervalError (interval : String) : String :=
  "invalid interval: '" ++ interval ++
    "'. Must be one of 'daily', 'weekly', 'monthly', or 'yearly'"

/-- The method `(e *RecurringExpense) Validate`: the template as the call leaves it, and the
error. -/
def RecurringExpense.Validate (U : UnicodeTables) (e : RecurringExpense) :
    RecurringExpense × Option String :=
  let e := { e with Name := SanitizeString U e.Name }
  if e.Name = "" then (e, some "recurring expense 'name' cannot be empty")
  else if e.Category = "" then (e, some "recurring expense 'category' cannot be empty")
  else
    let e := if 0 < e.Tags.length then { e with Tags := cleanTags U e.Tags } else e
    if e.Occurrences < 2 then (e, some "at least 2 occurences required to recur")
    else if e.StartDate.IsZero then
      (e, some "start date for recurring expense must be specified")
    else if !validIntervalsAt e.Interval then (e, some (invalidIntervalError e.Interval))
    else (e, none)

/-- The variable `SupportedCurrencies`. -/
def SupportedCurrencies : List String :=
  ["usd", "eur", "gbp", "jpy", "cny", "krw", "inr", "rub", "brl", "zar", "aed", "aud", "cad",
   "chf", "hkd", "bdt", "sgd", "thb", "try", "mxn", "php", "pln", "sek", "nzd", "dkk", "idr",
   "ils", "vnd", "myr", "mad"]

/-- The function `ValidateCategory`: the clean name and the error. -/
def ValidateCategory (U : UnicodeTables) (category : String) : String × Option String :=
  let sanitized := SanitizeString U category
  if sanitized = "" then
    ("", some "category name cannot be empty or contain only invalid characters")
  else (sanitized, none)

/-! ## Configuration defaults -/

/-- The struct `Config`; `StartDate` is a Go `int`. -/
structure Config where
  Categories : List String
  Currency : String
  StartDate : Int
  RecurringExpenses : List RecurringExpense
deriving DecidableEq

/-- The struct `UserDefaults`; `StartDate` is a Go `int`. -/
structure UserDefaults where
  Categories : List String
  Currency : String
  StartDate : Int
  Theme : String
deriving DecidableEq

/-- The variable `defaultCategories`. -/
def defaultCategories : List String :=
  ["Food", "Groceries", "Travel", "Rent", "Utilities", "Entertainment", "Healthcare",
   "Shopping", "Miscellaneous", "Income"]

/-- The slice `paths` of `LoadUserDefaults`, in the order in which it is probed. -/
def userDefaultsPaths : List String :=
  ["user-defaults.json", "../user-defaults.json", "../../user-defaults.json"]

/-- The function `LoadUserDefaults`: the document (`none` is the `nil` pointer) and the error.
Here `readFile path` is the content that `os.ReadFile` returns, or `none` when it returns an
error, and `unmarshal data` is the outcome of `json.Unmarshal` into a fresh `UserDefaults`:
the decoded document, or the message of the decoding error. -/
def LoadUserDefaults (readFile : String → Option String)
    (unmarshal : String → Except String UserDefaults) : Option UserDefaults × Option String :=
  match userDefaultsPaths.findSome? readFile with
  | none => (none, none)
  | some data =>
    match unmarshal data with
    | Except.error err => (none, some ("failed to parse user-defaults.json: " ++ err))
    | Except.ok defaults => (some defaults, none)

/-- The method `(c *Config) SetBaseConfig`: the configuration as the call leaves it. The
method returns nothing. -/
def Config.SetBaseConfig (c : Config) (readFile : String → Option String)
    (unmarshal : String → Except String UserDefaults) : Config :=
  let c : Config :=
    match LoadUserDefaults readFile unmarshal with
    | (some userDefaults, none) =>
      let c : Config :=
        if 0 < userDefaults.Categories.length then
          { c with Categories := userDefaults.Categories }
        else { c with Categories := defaultCategories }
      let c : Config :=
        if userDefaults.Currency ≠ "" then { c with Currency := userDefaults.Currency }
        else { c with Currency := "usd" }
      if 1 ≤ userDefaults.StartDate ∧ userDefaults.StartDate ≤ 31 then
        { c with StartDate := userDefaults.StartDate }
      else { c with StartDate := 1 }
    | _ => { c with Categories := defaultCategories, Currency := "usd", StartDate := 1 }
  { c with RecurringExpenses := [] }

/-! ## Backend selection -/

/-- The type `BackendType`, a Go string type. -/
abbrev BackendType := String

/-- The constant `BackendTypeJSON`. -/
def BackendTypeJSON : BackendType := "json"

/-- The constant `BackendTypePostgres`. -/
def BackendTypePostgres : BackendType := "postgres"

/-- The struct `SystemConfig`. -/
structure SystemConfig where
  StorageURL : String
  StorageType : BackendType
  StorageUser : String
  StoragePass : String
  StorageSSL : String
deriving DecidableEq

/-- The function `backendTypeFromEnv`. -/
def backendTypeFromEnv (env : String) : BackendType :=
  if env = "json" then BackendTypeJSON
  else if env = "postgres" then BackendTypePostgres
  else BackendTypeJSON

/-- The function `backendURLFromEnv`. -/
def backendURLFromEnv (env : String) : String :=
  if env = "" then "data" else env

/-- The function `backendSSLFromEnv`. -/
def backendSSLFromEnv (env : String) : String :=
  if env = "disable" ∨ env = "require" ∨ env = "verify-full" ∨ env = "verify-ca" then env
  else "disable"

/-- The method `(c *SystemConfig) SetStorageConfig`; `getenv` is `os.Getenv`, which returns
the empty string for a variable that is not set. -/
def SystemConfig.SetStorageConfig (c : SystemConfig) (getenv : String → String) :
    SystemConfig :=
  let c := { c with StorageType := backendTypeFromEnv (getenv "STORAGE_TYPE") }
  let c := { c with StorageURL := backendURLFromEnv (getenv "STORAGE_URL") }
  let c := { c with StorageSSL := backendSSLFromEnv (getenv "STORAGE_SSL") }
  let c := { c with StorageUser := getenv "STORAGE_USER" }
  { c with StoragePass := getenv "STORAGE_PASS" }

/-- The function `InitializeStorage`: the store (`none` is `nil`) and the error. The two
constructors `InitializeJsonStore` and `InitializePostgresStore` are defined in other files
of the package; they are passed in, for any type `σ` of stores. -/
def InitializeStorage {σ : Type} (getenv : String → String)
    (InitializeJsonStore InitializePostgresStore : SystemConfig → Option σ × Option String) :
    Option σ × Option String :=
  let baseConfig : SystemConfig := ⟨"", "", "", "", ""⟩
  let baseConfig := baseConfig.SetStorageConfig getenv
  if baseConfig.StorageType = BackendTypeJSON then InitializeJsonStore baseConfig
  else if baseConfig.StorageType = BackendTypePostgres then InitializePostgresStore baseConfig
  else (none, some ("invalid data store: " ++ baseConfig.StorageType))

/-! ## Auxiliary notions and sample records -/

/-- Two neighbouring runes are not both the ASCII space. -/
def NotBothSpaces (a b : Char) : Prop := ¬ (a = ' ' ∧ b = ' ')

/-- The rune is kept by `REInvalidChars` and is not a blank: it is a letter, a number or one
of the seven punctuation marks. -/
def isKept (U : UnicodeTables) (c : Char) : Bool :=
  U.isLetter c || U.isNumber c || isAllowedPunct c

/-- The tables restricted to ASCII: the letters `A` to `Z` and `a` to `z` and the numbers `0`
to `9`. On ASCII text the sanitiser computes the same result with these tables as with the
tables of any Go release; they serve to evaluate it on sample records. -/
def asciiTables : UnicodeTables where
  isLetter := isAsciiLetter
  isNumber := isAsciiDigit
  letter_ascii := fun _ _ => rfl
  number_ascii := fun _ _ => rfl
  letter_not_space := by
    intro c h
    unfold isSpace at h
    unfold isAsciiLetter
    generalize c.toNat = n at h ⊢
    simp only [Bool.or_eq_true, Bool.and_eq_true, beq_iff_eq, decide_eq_true_eq] at h
    simp only [Bool.or_eq_false_iff, Bool.and_eq_false_iff, decide_eq_false_iff_not]
    omega
  number_not_space := by
    intro c h
    unfold isSpace at h
    unfold isAsciiDigit
    generalize c.toNat = n at h ⊢
    simp only [Bool.or_eq_true, Bool.and_eq_true, beq_iff_eq, decide_eq_true_eq] at h
    simp only [Bool.and_eq_false_iff, decide_eq_false_iff_not]
    omega

/-- The instant 2025-01-01 00:00:00 UTC. -/
def newYear2025 : Time := ⟨63871286400, 0⟩

/-- The `float64` value `+0`. -/
def zeroAmount : Float64 := ⟨false, 0, 0, by decide, by decide⟩

/-- The `float64` value `-50.0`, that is `-1.5625 * 2 ^ 5`. -/
def minusFifty : Float64 := ⟨true, 1028, 0x9000000000000, by decide, by decide⟩

/-- The `float64` value `1200.0`, that is `1.171875 * 2 ^ 10`. -/
def twelveHundred : Float64 := ⟨false, 1033, 0x2C00000000000, by decide, by decide⟩

/-- A refund of 50 in a currency that `SupportedCurrencies` does not list. -/
def refund : Expense :=
  { ID := "e1", RecurringID := "", Name := "Refund", Tags := ["  ", "Food*", ""],
    Category := "Food", Amount := minusFifty, Currency := "doubloon", Date := newYear2025 }

/-- An expense with an empty name and the amount `+0`. -/
def namelessZero : Expense :=
  { ID := "e2", RecurringID := "", Name := "", Tags := [], Category := "Food",
    Amount := zeroAmount, Currency := "usd", Date := newYear2025 }

/-- An expense with a name and a category, the amount `+0` and no date. -/
def lunchZero : Expense :=
  { ID := "e3", RecurringID := "", Name := "Lunch", Tags := ["a"], Category := "Food",
    Amount := zeroAmount, Currency := "usd", Date := ⟨0, 0⟩ }

/-- A monthly rent template with the given interval and number of occurrences. -/
def rentTemplate (interval : String) (occurrences : Int) : RecurringExpense :=
  { ID := "r1", Name := "Rent", Amount := twelveHundred, Currency := "usd",
    Tags := ["  ", "Food*", ""], Category := "Housing", StartDate := newYear2025,
    Interval := interval, Occurrences := occurrences }

/-- A file system without a readable `user-defaults.json`. -/
def noFiles : String → Option String := fun _ => none

/-- A file system whose only readable file is `path`, with the given content. -/
def oneFile (path content : String) : String → Option String :=
  fun p => if p = path then some content else none

/-- The outcome of `json.Unmarshal` on three sample contents: the document that sets only
`startDate` to 45 is decoded, the text `oops` is rejected at its first character, and the
empty content is rejected as truncated. No other content is used below; it is treated like
the empty one. -/
def sampleUnmarshal : String → Except String UserDefaults :=
  fun data =>
    if data = "\x7b\"startDate\": 45\x7d" then Except.ok ⟨[], "", 45, ""⟩
    else if data = "oops" then
      Except.error "invalid character 'o' looking for beginning of value"
    else Except.error "unexpected end of JSON input"

/-- A configuration that already holds data. -/
def usedConfig : Config :=
  { Categories := ["Pets"], Currency := "eur", StartDate := 15,
    RecurringExpenses := [rentTemplate "monthly" 12] }

/-- The environment in which no variable is set. -/
def emptyEnv : String → String := fun _ => ""

/-- An expense whose category holds blanks and a disallowed rune. -/
def rawCategory : Expense :=
  { ID := "e4", RecurringID := "r1", Name := " Lunch ", Tags := [" x "],
    Category := " Food* ", Amount := minusFifty, Currency := "usd", Date := newYear2025 }

/-- An expense with a valid name, an empty category, the amount `+0` and no date. -/
def manyFaults : Expense :=
  { ID := "e5", RecurringID := "", Name := "Lunch", Tags := [], Category := "",
    Amount := zeroAmount, Currency := "usd", Date := ⟨0, 0⟩ }

/-! ## Lemmas on the sanitiser -/

theorem isPerlSpace_space : isPerlSpace ' ' = true := by decide

theorem isSpace_space : isSpace ' ' = true := by decide

theorem isInvalidChar_space {U : UnicodeTables} : isInvalidChar U ' ' = false := by
  simp [isInvalidChar, isPerlSpace_space]

theorem isInvalidChar_of_mem_replaceInvalid {U : UnicodeTables} {l : List Char} {c : Char}
    (h : c ∈ replaceInvalid U l) : isInvalidChar U c = false := by
  unfold replaceInvalid at h
  obtain ⟨a, _, rfl⟩ := List.mem_map.1 h
  by_cases ha : isInvalidChar U a = true
  · simp [ha, isInvalidChar_space]
  · simp [ha]

theorem mem_replaceInvalid {U : UnicodeTables} {l : List Char} {c : Char}
    (h : c ∈ replaceInvalid U l) :
    c = ' ' ∨ (c ∈ l ∧ isInvalidChar U c = false) := by
  unfold replaceInvalid at h
  obtain ⟨a, hal, rfl⟩ := List.mem_map.1 h
  by_cases ha : isInvalidChar U a = true
  · simp [ha]
  · right
    simp only [ha]
    exact ⟨hal, by simpa using ha⟩

theorem replaceInvalid_eq_self {U : UnicodeTables} {l : List Char}
    (h : ∀ c ∈ l, isInvalidChar U c = false) :
    replaceInvalid U l = l := by
  unfold replaceInvalid
  conv_rhs => rw [← List.map_id l]
  apply List.map_congr_left
  intro c hc
  simp [h c hc]

theorem mem_collapseAux {b : Bool} {l : List Char} {c : Char} (h : c ∈ collapseAux b l) :
    c = ' ' ∨ (c ∈ l ∧ isPerlSpace c = false) := by
  induction l generalizing b with
  | nil => simp [collapseAux] at h
  | cons a as ih =>
    unfold collapseAux at h
    by_cases ha : isPerlSpace a = true
    · simp only [ha, if_true] at h
      cases b with
      | true =>
        simp only [if_true] at h
        rcases ih h with h1 | ⟨h1, h2⟩
        · exact Or.inl h1
        · exact Or.inr ⟨List.mem_cons_of_mem _ h1, h2⟩
      | false =>
        simp only [Bool.false_eq_true, if_false, List.mem_cons] at h
        rcases h with h | h
        · exact Or.inl h
        · rcases ih h with h1 | ⟨h1, h2⟩
          · exact Or.inl h1
          · exact Or.inr ⟨List.mem_cons_of_mem _ h1, h2⟩
    · simp only [ha, Bool.false_eq_true, if_false, List.mem_cons] at h
      rcases h with h | h
      · subst h
        exact Or.inr ⟨List.mem_cons_self _ _, by simpa using ha⟩
      · rcases ih h with h1 | ⟨h1, h2⟩
        · exact Or.inl h1
        · exact Or.inr ⟨List.mem_cons_of_mem _ h1, h2⟩

theorem chain_collapseAux (l : List Char) :
    List.Chain' NotBothSpaces (collapseAux false l) ∧
      List.Chain' NotBothSpaces (' ' :: collapseAux true l) := by
  induction l with
  | nil => simp [collapseAux]
  | cons a as ih =>
    by_cases ha : isPerlSpace a = true
    · simp only [collapseAux, ha, if_true, Bool.false_eq_true, if_false]
      exact ⟨ih.2, ih.2⟩
    · have hne : a ≠ ' ' := fun h => ha (h ▸ isPerlSpace_space)
      have hc : List.Chain' NotBothSpaces (a :: collapseAux false as) := by
        rw [List.chain'_cons']
        exact ⟨fun y _ h => hne h.1, ih.1⟩
      simp only [collapseAux, ha, Bool.false_eq_true, if_false]
      refine ⟨hc, ?_⟩
      rw [List.chain'_cons']
      exact ⟨fun y hy h => by simp at hy; exact hne (hy ▸ h.2), hc⟩

theorem collapseAux_eq_self (l : List Char)
    (h1 : ∀ c ∈ l, isPerlSpace c = true → c = ' ')
    (h2 : List.Chain' NotBothSpaces l) :
    collapseAux false l = l ∧ (l.head? ≠ some ' ' → collapseAux true l = l) := by
  induction l with
  | nil => simp [collapseAux]
  | cons a as ih =>
    have h2' := List.chain'_cons'.1 h2
    have ih' := ih (fun c hc => h1 c (List.mem_cons_of_mem _ hc)) h2'.2
    by_cases ha : isPerlSpace a = true
    · have hsp : a = ' ' := h1 a (List.mem_cons_self _ _) ha
      subst hsp
      have hhead : as.head? ≠ some ' ' := by
        intro hh
        exact h2'.1 ' ' (by simp [hh]) ⟨rfl, rfl⟩
      constructor
      · simp only [collapseAux, ha, if_true, Bool.false_eq_true, if_false]
        rw [ih'.2 hhead]
      · intro hh
        simp at hh
    · simp only [collapseAux, ha, Bool.false_eq_true, if_false]
      rw [ih'.1]
      simp

theorem TrimSpace_segment (l : List Char) : ∃ a b, l = a ++ TrimSpace l ++ b := by
  unfold TrimSpace
  obtain ⟨t, ht⟩ := List.rdropWhile_prefix isSpace (l.dropWhile isSpace)
  obtain ⟨u, hu⟩ := List.dropWhile_suffix isSpace (l := l)
  exact ⟨u, t, by rw [List.append_assoc, ht, hu]⟩

theorem mem_of_mem_TrimSpace {l : List Char} {c : Char} (h : c ∈ TrimSpace l) : c ∈ l := by
  obtain ⟨a, b, hab⟩ := TrimSpace_segment l
  rw [hab]
  simp [h]

theorem chain_TrimSpace {l : List Char} (h : List.Chain' NotBothSpaces l) :
    List.Chain' NotBothSpaces (TrimSpace l) := by
  obtain ⟨a, b, hab⟩ := TrimSpace_segment l
  rw [hab] at h
  exact h.left_of_append.right_of_append

theorem head_TrimSpace (l : List Char) (c : Char) (h : (TrimSpace l).head? = some c) :
    isSpace c = false := by
  unfold TrimSpace at h
  obtain ⟨t, ht⟩ := List.rdropWhile_prefix isSpace (l.dropWhile isSpace)
  cases hr : List.rdropWhile isSpace (l.dropWhile isSpace) with
  | nil => simp [hr] at h
  | cons a as =>
    rw [hr] at h ht
    simp only [List.head?_cons, Option.some.injEq] at h
    subst h
    have hd : (l.dropWhile isSpace).head? = some a := by rw [← ht]; simp
    have := List.head?_dropWhile_not isSpace l
    rw [hd] at this
    simpa using this

theorem getLast_TrimSpace (l : List Char) (c : Char) (h : (TrimSpace l).getLast? = some c) :
    isSpace c = false := by
  unfold TrimSpace at h
  have hne : List.rdropWhile isSpace (l.dropWhile isSpace) ≠ [] := by
    intro h0
    simp [h0] at h
  have := List.rdropWhile_last_not isSpace (l.dropWhile isSpace) hne
  rw [List.getLast?_eq_getLast _ hne] at h
  simp only [Option.some.injEq] at h
  rw [h] at this
  simpa using this

theorem TrimSpace_eq_self (l : List Char)
    (h1 : ∀ c, l.head? = some c → isSpace c = false)
    (h2 : ∀ c, l.getLast? = some c → isSpace c = false) : TrimSpace l = l := by
  unfold TrimSpace
  have hd : l.dropWhile isSpace = l := by
    cases l with
    | nil => rfl
    | cons a as =>
      have := h1 a rfl
      simp [List.dropWhile, this]
  rw [hd]
  rw [List.rdropWhile_eq_self_iff]
  intro hl
  have := h2 (l.getLast hl) (List.getLast?_eq_getLast _ hl)
  simp [this]

theorem isAllowedPunct_of_isSpace (c : Char) (h : isSpace c = true) :
    isAllowedPunct c = false := by
  unfold isSpace at h
  unfold isAllowedPunct
  generalize c.toNat = n at h ⊢
  simp only [Bool.or_eq_true, Bool.and_eq_true, beq_iff_eq, decide_eq_true_eq] at h
  simp only [Bool.or_eq_false_iff, beq_eq_false_iff_ne, ne_eq]
  omega

theorem isSpace_of_isPerlSpace (c : Char) (h : isPerlSpace c = true) : isSpace c = true := by
  unfold isPerlSpace at h
  unfold isSpace
  generalize c.toNat = n at h ⊢
  simp only [Bool.or_eq_true, Bool.and_eq_true, beq_iff_eq, decide_eq_true_eq] at h ⊢
  omega

theorem sanitized_mem {U : UnicodeTables} (l : List Char) (c : Char)
    (h : c ∈ TrimSpace (collapseSpaces (replaceInvalid U l))) :
    isInvalidChar U c = false ∧ (isPerlSpace c = true → c = ' ') := by
  have hc := mem_of_mem_TrimSpace h
  unfold collapseSpaces at hc
  rcases mem_collapseAux hc with h1 | ⟨h1, h2⟩
  · subst h1
    exact ⟨isInvalidChar_space, fun _ => rfl⟩
  · exact ⟨isInvalidChar_of_mem_replaceInvalid h1, fun h3 => by simp [h2] at h3⟩

theorem sanitized_chain {U : UnicodeTables} (l : List Char) :
    List.Chain' NotBothSpaces (TrimSpace (collapseSpaces (replaceInvalid U l))) :=
  chain_TrimSpace (chain_collapseAux _).1

theorem sanitize_eq_self {U : UnicodeTables} (r : List Char)
    (hmem : ∀ c ∈ r, isInvalidChar U c = false ∧ (isPerlSpace c = true → c = ' '))
    (hchain : List.Chain' NotBothSpaces r)
    (hhead : ∀ c, r.head? = some c → isSpace c = false)
    (hlast : ∀ c, r.getLast? = some c → isSpace c = false) :
    TrimSpace (collapseSpaces (replaceInvalid U r)) = r := by
  rw [replaceInvalid_eq_self fun c hc => (hmem c hc).1]
  unfold collapseSpaces
  rw [(collapseAux_eq_self r (fun c hc => (hmem c hc).2) hchain).1]
  exact TrimSpace_eq_self r hhead hlast

theorem no_double_space_of_chain (r : List Char) (h : List.Chain' NotBothSpaces r) :
    ¬ [' ', ' '] <:+: r := by
  rintro ⟨a, b, rfl⟩
  have := h.left_of_append.right_of_append
  simp [NotBothSpaces] at this

theorem collapseAux_of_all_space (l : List Char) (h : ∀ c ∈ l, isPerlSpace c = true) :
    collapseAux true l = [] ∧ (collapseAux false l = [] ∨ collapseAux false l = [' ']) := by
  induction l with
  | nil => simp [collapseAux]
  | cons a as ih =>
    have ha := h a (List.mem_cons_self _ _)
    have ih' := ih fun c hc => h c (List.mem_cons_of_mem _ hc)
    simp [collapseAux, ha, ih'.1]

theorem isInvalidChar_ascii (U : UnicodeTables) (c : Char) (h : c.toNat < 0x80) :
    isInvalidChar U c = isInvalidChar asciiTables c := by
  unfold isInvalidChar
  rw [U.letter_ascii c h, U.number_ascii c h]
  rfl

theorem SanitizeString_ascii (U : UnicodeTables) (s : String)
    (h : ∀ c ∈ s.data, c.toNat < 0x80) :
    SanitizeString U s = SanitizeString asciiTables s := by
  have hr : replaceInvalid U s.data = replaceInvalid asciiTables s.data := by
    unfold replaceInvalid
    exact List.map_congr_left fun c hc => by rw [isInvalidChar_ascii U c (h c hc)]
  unfold SanitizeString
  rw [hr]

/-! ## The claims on `SanitizeString` -/

/-- C1: `SanitizeString` is idempotent: sanitising a sanitised string changes nothing. -/
theorem SanitizeString_idempotent (U : UnicodeTables) (s : String) :
    SanitizeString U (SanitizeString U s) = SanitizeString U s := by
  unfold SanitizeString
  congr 1
  exact sanitize_eq_self _ (sanitized_mem s.data) (sanitized_chain s.data)
    (head_TrimSpace _) (getLast_TrimSpace _)

/-- C8: whatever the Unicode tables `U` of the Go release are, every rune of
`SanitizeString s` is a Unicode letter, a Unicode number, the ASCII
space or one of the seven allowed punctuation marks; the result does not start with a space,
does not end with a space, and holds no two adjacent spaces; no rune that `\s` or
`unicode.IsSpace` counts as a blank survives, except the ASCII space. -/
theorem SanitizeString_shape (U : UnicodeTables) (s : String) :
    (∀ c ∈ (SanitizeString U s).data,
      U.isLetter c = true ∨ U.isNumber c = true ∨ c = ' ' ∨ isAllowedPunct c = true) ∧
    (SanitizeString U s).data.head? ≠ some ' ' ∧
    (SanitizeString U s).data.getLast? ≠ some ' ' ∧
    ¬ [' ', ' '] <:+: (SanitizeString U s).data ∧
    (∀ c ∈ (SanitizeString U s).data,
      isPerlSpace c = true ∨ isSpace c = true → c = ' ') := by
  have hall : ∀ c ∈ (SanitizeString U s).data,
      U.isLetter c = true ∨ U.isNumber c = true ∨ c = ' ' ∨ isAllowedPunct c = true := by
    intro c hc
    obtain ⟨h1, h2⟩ := sanitized_mem s.data c hc
    unfold isInvalidChar at h1
    rw [Bool.not_eq_false_eq_eq_true] at h1
    simp only [Bool.or_eq_true] at h1
    rcases h1 with ((h | h) | h) | h
    · exact Or.inl h
    · exact Or.inr (Or.inl h)
    · exact Or.inr (Or.inr (Or.inl (h2 h)))
    · exact Or.inr (Or.inr (Or.inr h))
  refine ⟨hall, ?_, ?_, ?_, ?_⟩
  · intro h
    have := head_TrimSpace _ _ h
    simp [isSpace_space] at this
  · intro h
    have := getLast_TrimSpace _ _ h
    simp [isSpace_space] at this
  · exact no_double_space_of_chain _ (sanitized_chain s.data)
  · intro c hc hsp
    have hs : isSpace c = true := hsp.elim (isSpace_of_isPerlSpace c) id
    rcases hall c hc with h | h | h | h
    · have := U.letter_not_space c hs
      simp [this] at h
    · have := U.number_not_space c hs
      simp [this] at h
    · exact h
    · simp [isAllowedPunct_of_isSpace c hs] at h

/-- C9: whatever the Unicode tables `U` of the Go release are, a string whose runes are all
blanks or runes outside the allowed set (no letter of `U`, no number of `U`, none of the seven
punctuation marks) is sanitised to the empty string; the empty
string is one of them. `SanitizeString` is a total function, it has no error result. -/
theorem SanitizeString_eq_empty (U : UnicodeTables) (s : String)
    (h : ∀ c ∈ s.data, isPerlSpace c = true ∨ isSpace c = true ∨
      (U.isLetter c = false ∧ U.isNumber c = false ∧ isAllowedPunct c = false)) :
    SanitizeString U s = "" := by
  have hall : ∀ c ∈ replaceInvalid U s.data, isPerlSpace c = true := by
    intro c hc
    rcases mem_replaceInvalid hc with h1 | ⟨h1, h2⟩
    · exact h1 ▸ isPerlSpace_space
    · have hout : U.isLetter c = false ∧ U.isNumber c = false ∧ isAllowedPunct c = false →
          isPerlSpace c = true := by
        intro ⟨hl, hn, hp⟩
        simpa [isInvalidChar, hl, hn, hp] using h2
      rcases h c h1 with h3 | h3 | h3
      · exact h3
      · exact hout ⟨U.letter_not_space c h3,
          U.number_not_space c h3,
          isAllowedPunct_of_isSpace c h3⟩
      · exact hout h3
  have hc := (collapseAux_of_all_space _ hall).2
  unfold SanitizeString collapseSpaces
  rcases hc with hc | hc <;> rw [hc] <;> decide

/-- Witness of C9: a string of blanks, a tab and disallowed symbols is sanitised to the
empty string. -/
theorem SanitizeString_eq_empty_witness : SanitizeString asciiTables " &*\t/ " = "" :=
  SanitizeString_eq_empty asciiTables " &*\t/ " (by decide)

/-- C10: `SanitizeString "  Food   & Drink!!  "` is `"Food Drink!!"`, whatever the Unicode
tables of the Go release are. -/
theorem SanitizeString_food_drink (U : UnicodeTables) :
    SanitizeString U "  Food   & Drink!!  " = "Food Drink!!" := by
  rw [SanitizeString_ascii U _ (by decide)]
  decide

/-! ## Lemmas on the validators -/

theorem foldl_cleanTags {U : UnicodeTables} (tags acc : List String) :
    tags.foldl
      (fun cleanedTags tag =>
        let sanitizedTag := SanitizeString U tag
        if sanitizedTag ≠ "" then cleanedTags ++ [sanitizedTag] else cleanedTags)
      acc = acc ++ (tags.map (SanitizeString U)).filter (fun t => t ≠ "") := by
  induction tags generalizing acc with
  | nil => simp
  | cons t ts ih =>
    simp only [List.foldl_cons, List.map_cons]
    rw [ih]
    by_cases ht : SanitizeString U t = ""
    · simp [ht]
    · simp [ht]

theorem cleanTags_eq {U : UnicodeTables} (tags : List String) :
    cleanTags U tags = (tags.map (SanitizeString U)).filter (fun t => t ≠ "") := by
  unfold cleanTags
  rw [foldl_cleanTags]
  simp

theorem validIntervalsAt_iff (key : String) :
    validIntervalsAt key = true ↔
      key = "daily" ∨ key = "weekly" ∨ key = "monthly" ∨ key = "yearly" := by
  unfold validIntervalsAt validIntervals
  by_cases h1 : key = "daily"
  · subst h1; decide
  by_cases h2 : key = "weekly"
  · subst h2; decide
  by_cases h3 : key = "monthly"
  · subst h3; decide
  by_cases h4 : key = "yearly"
  · subst h4; decide
  have e1 : (key == "daily") = false := by simpa using h1
  have e2 : (key == "weekly") = false := by simpa using h2
  have e3 : (key == "monthly") = false := by simpa using h3
  have e4 : (key == "yearly") = false := by simpa using h4
  simp [List.lookup, h1, h2, h3, h4, e1, e2, e3, e4]

/-! ## Further lemmas -/

theorem SanitizeString_fix {U : UnicodeTables} (s : String) :
    SanitizeString U (SanitizeString U s) = SanitizeString U s := by
  unfold SanitizeString
  congr 1
  exact sanitize_eq_self _ (sanitized_mem s.data) (sanitized_chain s.data)
    (head_TrimSpace _) (getLast_TrimSpace _)

theorem cleanTags_guard {U : UnicodeTables} (tags : List String) :
    (if 0 < tags.length then cleanTags U tags else tags) = cleanTags U tags := by
  cases tags with
  | nil => simp [cleanTags]
  | cons t ts => simp

theorem cleanTags_fix {U : UnicodeTables} (tags : List String) :
    cleanTags U (cleanTags U tags) = cleanTags U tags := by
  rw [cleanTags_eq (cleanTags U tags)]
  have hfix : ∀ t ∈ cleanTags U tags, SanitizeString U t = t := by
    intro t ht
    rw [cleanTags_eq] at ht
    obtain ⟨x, _, rfl⟩ := List.mem_map.1 (List.mem_filter.1 ht).1
    exact SanitizeString_fix x
  have hmap : (cleanTags U tags).map (SanitizeString U) = cleanTags U tags := by
    conv_rhs => rw [← List.map_id (cleanTags U tags)]
    exact List.map_congr_left fun t ht => by simp [hfix t ht]
  rw [hmap, List.filter_eq_self]
  intro t ht
  rw [cleanTags_eq] at ht
  exact (List.mem_filter.1 ht).2

theorem Expense_Validate_eq (U : UnicodeTables) (e : Expense) (hn : SanitizeString U e.Name ≠ "")
    (hc : e.Category ≠ "") (ha : e.Amount.eqZero = false) :
    Expense.Validate U e =
      ({ e with Name := SanitizeString U e.Name, Tags := cleanTags U e.Tags },
        if e.Date.IsZero = true then some "expense 'date' cannot be empty" else none) := by
  unfold Expense.Validate
  cases ht : e.Tags with
  | nil => by_cases hd : e.Date.IsZero = true <;> simp [hn, hc, ha, hd, ht, cleanTags]
  | cons t ts => by_cases hd : e.Date.IsZero = true <;> simp [hn, hc, ha, hd, ht]

theorem RecurringExpense_Validate_eq (U : UnicodeTables) (r : RecurringExpense)
    (hn : SanitizeString U r.Name ≠ "") (hc : r.Category ≠ "") :
    RecurringExpense.Validate U r =
      ({ r with Name := SanitizeString U r.Name, Tags := cleanTags U r.Tags },
        if r.Occurrences < 2 then some "at least 2 occurences required to recur"
        else if r.StartDate.IsZero = true then
          some "start date for recurring expense must be specified"
        else if validIntervalsAt r.Interval = true then none
        else some (invalidIntervalError r.Interval)) := by
  unfold RecurringExpense.Validate
  cases ht : r.Tags with
  | nil =>
    by_cases ho : r.Occurrences < 2 <;> by_cases hd : r.StartDate.IsZero = true <;>
      by_cases hi : validIntervalsAt r.Interval = true <;>
      simp [hn, hc, ho, hd, hi, ht, cleanTags]
  | cons t ts =>
    by_cases ho : r.Occurrences < 2 <;> by_cases hd : r.StartDate.IsZero = true <;>
      by_cases hi : validIntervalsAt r.Interval = true <;>
      simp [hn, hc, ho, hd, hi, ht]

/-! ## The claims on the validators -/

/-- C2, evaluated on the code: a template with `Occurrences = 0` and with every other field
valid is rejected by `RecurringExpense.Validate` with the too-few-occurrences error. -/
theorem RecurringExpense_Validate_zero_occurrences (U : UnicodeTables) :
    (RecurringExpense.Validate U (rentTemplate "monthly" 0)).2 =
      some "at least 2 occurences required to recur" := by
  have hn : SanitizeString U (rentTemplate "monthly" 0).Name ≠ "" := by
    rw [SanitizeString_ascii U _ (by decide)]
    decide
  rw [RecurringExpense_Validate_eq U _ hn (by decide)]
  rfl

/-- Counterexample to C3 as stated: an expense with the amount `+0` and an empty name fails
with the name error, not with the invalid-amount error. -/
theorem Expense_Validate_nameless_zero :
    namelessZero.Amount.eqZero = true ∧
      (Expense.Validate asciiTables namelessZero).2 = some "expense 'name' cannot be empty" ∧
      (Expense.Validate asciiTables namelessZero).2 ≠ some "expense 'amount' cannot be 0" := by
  decide

/-- C3, amended: an expense whose amount is zero is always rejected; the error is the
invalid-amount error whenever the sanitised name and the category are not empty, whatever
the tags and the date are. -/
theorem Expense_Validate_zero_amount (U : UnicodeTables) (e : Expense)
    (h : e.Amount.eqZero = true) :
    (Expense.Validate U e).2 ≠ none ∧
      (SanitizeString U e.Name ≠ "" → e.Category ≠ "" →
        (Expense.Validate U e).2 = some "expense 'amount' cannot be 0") := by
  unfold Expense.Validate
  by_cases hn : SanitizeString U e.Name = ""
  · simp [hn]
  · by_cases hc : e.Category = ""
    · simp [hn, hc]
    · simp [hn, hc, h]

/-- Witness of C3, amended: a named expense with the amount `+0` and no date gets the
invalid-amount error. -/
theorem Expense_Validate_zero_amount_witness :
    lunchZero.Amount.eqZero = true ∧
      (Expense.Validate asciiTables lunchZero).2 = some "expense 'amount' cannot be 0" :=
  ⟨by decide,
    (Expense_Validate_zero_amount asciiTables lunchZero (by decide)).2 (by decide) (by decide)⟩

/-- C4: `Expense.Validate` returns no error exactly when the sanitised name is not empty, the
category is not empty, the amount is not zero and the date is not the zero time; a negative
amount is not zero; and the error does not depend on `ID`, `RecurringID`, `Tags` and
`Currency`. -/
theorem Expense_Validate_ok_iff (U : UnicodeTables) (e : Expense) :
    ((Expense.Validate U e).2 = none ↔
      SanitizeString U e.Name ≠ "" ∧ e.Category ≠ "" ∧ e.Amount.eqZero = false ∧
        e.Date.IsZero = false) ∧
    (e.Amount.ltZero = true → e.Amount.eqZero = false) ∧
    (∀ (i r c : String) (t : List String),
      (Expense.Validate U { e with ID := i, RecurringID := r, Tags := t, Currency := c }).2 =
        (Expense.Validate U e).2) := by
  refine ⟨?_, ?_, ?_⟩
  · unfold Expense.Validate
    by_cases hn : SanitizeString U e.Name = ""
    · simp [hn]
    · by_cases hc : e.Category = ""
      · simp [hn, hc]
      · by_cases ha : e.Amount.eqZero = true
        · simp [hn, hc, ha]
        · by_cases hd : e.Date.IsZero = true
          · by_cases ht : 0 < e.Tags.length <;> simp [hn, hc, ha, hd, ht]
          · by_cases ht : 0 < e.Tags.length <;> simp [hn, hc, ha, hd, ht]
  · intro h
    unfold Float64.ltZero at h
    simp only [Bool.and_eq_true, Bool.not_eq_true'] at h
    exact h.2
  · intro i r c tags
    unfold Expense.Validate
    by_cases hn : SanitizeString U e.Name = ""
    · simp [hn]
    · by_cases hc : e.Category = ""
      · simp [hn, hc]
      · by_cases ha : e.Amount.eqZero = true
        · simp [hn, hc, ha]
        · by_cases hd : e.Date.IsZero = true
          · by_cases ht : 0 < e.Tags.length <;> by_cases ht2 : 0 < tags.length <;>
              simp [hn, hc, ha, hd, ht, ht2]
          · by_cases ht : 0 < e.Tags.length <;> by_cases ht2 : 0 < tags.length <;>
              simp [hn, hc, ha, hd, ht, ht2]

/-- Witness of C4: a refund of `-50.0` in a currency outside `SupportedCurrencies` is
accepted. -/
theorem Expense_Validate_ok_iff_witness :
    refund.Amount.ltZero = true ∧ refund.Currency ∉ SupportedCurrencies ∧
      (Expense.Validate asciiTables refund).2 = none :=
  ⟨by decide, by decide,
    (Expense_Validate_ok_iff asciiTables refund).1.2
      ⟨by decide, by decide, (Expense_Validate_ok_iff asciiTables refund).2.1 (by decide),
        by decide⟩⟩

/-- C5: when the sanitised name and the category of an expense are not empty and its amount
is not zero, and when the sanitised name and the category of a recurring expense are not
empty, `Validate` leaves as `Tags` the input tags each passed through `SanitizeString`, those
that became empty removed, the others in their original order, duplicates kept. -/
theorem Validate_Tags (U : UnicodeTables) (e : Expense) (r : RecurringExpense) :
    (SanitizeString U e.Name ≠ "" → e.Category ≠ "" → e.Amount.eqZero = false →
      (Expense.Validate U e).1.Tags =
        (e.Tags.map (SanitizeString U)).filter (fun t => t ≠ "")) ∧
    (SanitizeString U r.Name ≠ "" → r.Category ≠ "" →
      (RecurringExpense.Validate U r).1.Tags =
        (r.Tags.map (SanitizeString U)).filter (fun t => t ≠ "")) := by
  constructor
  · intro hn hc ha
    unfold Expense.Validate
    cases ht : e.Tags with
    | nil => by_cases hd : e.Date.IsZero = true <;> simp [hn, hc, ha, hd, ht]
    | cons t ts =>
      by_cases hd : e.Date.IsZero = true <;> simp [hn, hc, ha, hd, ht, cleanTags_eq]
  · intro hn hc
    unfold RecurringExpense.Validate
    cases ht : r.Tags with
    | nil =>
      by_cases ho : r.Occurrences < 2 <;> by_cases hd : r.StartDate.IsZero = true <;>
        by_cases hi : validIntervalsAt r.Interval = true <;> simp [hn, hc, ho, hd, hi, ht]
    | cons t ts =>
      by_cases ho : r.Occurrences < 2 <;> by_cases hd : r.StartDate.IsZero = true <;>
        by_cases hi : validIntervalsAt r.Interval = true <;>
        simp [hn, hc, ho, hd, hi, ht, cleanTags_eq]

/-- Witness of C5: the tags `["  ", "Food*", ""]` become `["Food"]`, on an expense and on a
recurring expense. -/
theorem Validate_Tags_witness :
    refund.Tags = ["  ", "Food*", ""] ∧
      (Expense.Validate asciiTables refund).1.Tags = ["Food"] ∧
      (RecurringExpense.Validate asciiTables (rentTemplate "monthly" 12)).1.Tags = ["Food"] :=
  ⟨rfl,
    ((Validate_Tags asciiTables refund (rentTemplate "monthly" 12)).1
      (by decide) (by decide) (by decide)).trans (by decide),
    ((Validate_Tags asciiTables refund (rentTemplate "monthly" 12)).2
      (by decide) (by decide)).trans (by decide)⟩

/-- C6: for a template whose sanitised name and category are not empty, with at least 2
occurrences and a start date, `RecurringExpense.Validate` returns no error exactly when
`Interval` is one of the strings `daily`, `weekly`, `monthly`, `yearly`; for every other
interval it returns the invalid-interval error, whose message quotes the interval. -/
theorem RecurringExpense_Validate_interval (U : UnicodeTables) (r : RecurringExpense)
    (hn : SanitizeString U r.Name ≠ "") (hc : r.Category ≠ "") (ho : 2 ≤ r.Occurrences)
    (hd : r.StartDate.IsZero = false) :
    ((RecurringExpense.Validate U r).2 = none ↔
      r.Interval = "daily" ∨ r.Interval = "weekly" ∨ r.Interval = "monthly" ∨
        r.Interval = "yearly") ∧
    (¬ (r.Interval = "daily" ∨ r.Interval = "weekly" ∨ r.Interval = "monthly" ∨
        r.Interval = "yearly") →
      (RecurringExpense.Validate U r).2 = some ("invalid interval: '" ++ r.Interval ++
        "'. Must be one of 'daily', 'weekly', 'monthly', or 'yearly'")) := by
  have ho' : ¬ r.Occurrences < 2 := not_lt.2 ho
  rw [← validIntervalsAt_iff]
  unfold RecurringExpense.Validate
  by_cases hi : validIntervalsAt r.Interval = true <;>
    by_cases ht : 0 < r.Tags.length <;>
    simp [hn, hc, ho', hd, hi, ht, invalidIntervalError]

/-- Witness of C6: the interval `Daily` is rejected with the error that quotes it, and the
interval `daily` is accepted. -/
theorem RecurringExpense_Validate_interval_witness :
    (RecurringExpense.Validate asciiTables (rentTemplate "Daily" 2)).2 =
        some "invalid interval: 'Daily'. Must be one of 'daily', 'weekly', 'monthly', or 'yearly'" ∧
      (RecurringExpense.Validate asciiTables (rentTemplate "daily" 2)).2 = none :=
  ⟨(RecurringExpense_Validate_interval asciiTables (rentTemplate "Daily" 2)
      (by decide) (by decide) (by decide) (by decide)).2 (by decide),
    (RecurringExpense_Validate_interval asciiTables (rentTemplate "daily" 2)
      (by decide) (by decide) (by decide) (by decide)).1.2 (by decide)⟩

/-- C7: a template with fewer than 2 occurrences is always rejected, and with the
too-few-occurrences error when its sanitised name and its category are not empty, whatever
the start date and the interval are; with at least 2 occurrences a template whose other
fields are valid is accepted. -/
theorem RecurringExpense_Validate_occurrences (U : UnicodeTables) (r : RecurringExpense) :
    (r.Occurrences < 2 → (RecurringExpense.Validate U r).2 ≠ none) ∧
    (r.Occurrences < 2 → SanitizeString U r.Name ≠ "" → r.Category ≠ "" →
      (RecurringExpense.Validate U r).2 = some "at least 2 occurences required to recur") ∧
    (2 ≤ r.Occurrences → SanitizeString U r.Name ≠ "" → r.Category ≠ "" →
      r.StartDate.IsZero = false →
      (r.Interval = "daily" ∨ r.Interval = "weekly" ∨ r.Interval = "monthly" ∨
        r.Interval = "yearly") →
      (RecurringExpense.Validate U r).2 = none) := by
  refine ⟨?_, ?_, ?_⟩
  · intro ho
    unfold RecurringExpense.Validate
    by_cases hn : SanitizeString U r.Name = ""
    · simp [hn]
    · by_cases hc : r.Category = ""
      · simp [hn, hc]
      · by_cases ht : 0 < r.Tags.length <;> simp [hn, hc, ho, ht]
  · intro ho hn hc
    unfold RecurringExpense.Validate
    by_cases ht : 0 < r.Tags.length <;> simp [hn, hc, ho, ht]
  · intro ho hn hc hd hi
    have ho' : ¬ r.Occurrences < 2 := not_lt.2 ho
    rw [← validIntervalsAt_iff] at hi
    unfold RecurringExpense.Validate
    by_cases ht : 0 < r.Tags.length <;> simp [hn, hc, ho', hd, hi, ht]

/-- Witness of C7: one occurrence is rejected with the too-few-occurrences error, even with
an interval that is not recognised; two occurrences are accepted. -/
theorem RecurringExpense_Validate_occurrences_witness :
    (RecurringExpense.Validate asciiTables (rentTemplate "hourly" 1)).2 =
        some "at least 2 occurences required to recur" ∧
      (RecurringExpense.Validate asciiTables (rentTemplate "monthly" 2)).2 = none :=
  ⟨(RecurringExpense_Validate_occurrences asciiTables (rentTemplate "hourly" 1)).2.1
      (by decide) (by decide) (by decide),
    (RecurringExpense_Validate_occurrences asciiTables (rentTemplate "monthly" 2)).2.2
      (by decide) (by decide) (by decide) (by decide) (by decide)⟩

/-! ## The claims on `ValidateCategory`, the defaults and the backend selection -/

/-- C11: `ValidateCategory name` is the sanitised name with no error when the sanitised name
is not empty, and the empty string with the empty-category error when it is empty; a clean
name returned without error is not empty and is left unchanged by `SanitizeString`. -/
theorem ValidateCategory_spec (U : UnicodeTables) (name : String) :
    (SanitizeString U name ≠ "" → ValidateCategory U name = (SanitizeString U name, none)) ∧
    (SanitizeString U name = "" → ValidateCategory U name =
      ("", some "category name cannot be empty or contain only invalid characters")) ∧
    ((ValidateCategory U name).2 = none →
      (ValidateCategory U name).1 ≠ "" ∧
        SanitizeString U (ValidateCategory U name).1 = (ValidateCategory U name).1) := by
  unfold ValidateCategory
  by_cases h : SanitizeString U name = ""
  · simp [h]
  · simp [h, SanitizeString_fix]

/-- Witness of C11: the name ` Food* ` is cleaned to `Food`, and the name `***` is
rejected. -/
theorem ValidateCategory_spec_witness :
    ValidateCategory asciiTables " Food* " = ("Food", none) ∧
      ValidateCategory asciiTables "***" =
        ("", some "category name cannot be empty or contain only invalid characters") ∧
      SanitizeString asciiTables (ValidateCategory asciiTables " Food* ").1 =
        (ValidateCategory asciiTables " Food* ").1 :=
  ⟨((ValidateCategory_spec asciiTables " Food* ").1 (by decide)).trans (by decide),
    (ValidateCategory_spec asciiTables "***").2.1 (by decide),
    ((ValidateCategory_spec asciiTables " Food* ").2.2 (by decide)).2⟩

/-- C12: when `LoadUserDefaults` finds no document, `SetBaseConfig` leaves the ten hardcoded
categories, the currency `usd` and the start day 1; when it loads a document, the categories
are the document's if it lists any and the ten defaults otherwise, the currency is the
document's unless it is empty and `usd` otherwise, and the start day is the document's if it
lies between 1 and 31 and 1 otherwise. In every case `RecurringExpenses` is left empty,
whatever the configuration held before. -/
theorem SetBaseConfig_merge (c : Config) (readFile : String → Option String)
    (unmarshal : String → Except String UserDefaults) :
    (LoadUserDefaults readFile unmarshal = (none, none) →
      c.SetBaseConfig readFile unmarshal = ⟨defaultCategories, "usd", 1, []⟩) ∧
    (∀ d : UserDefaults, LoadUserDefaults readFile unmarshal = (some d, none) →
      c.SetBaseConfig readFile unmarshal =
        ⟨if d.Categories ≠ [] then d.Categories else defaultCategories,
          if d.Currency ≠ "" then d.Currency else "usd",
          if 1 ≤ d.StartDate ∧ d.StartDate ≤ 31 then d.StartDate else 1, []⟩) ∧
    (c.SetBaseConfig readFile unmarshal).RecurringExpenses = [] ∧
    defaultCategories = ["Food", "Groceries", "Travel", "Rent", "Utilities", "Entertainment",
      "Healthcare", "Shopping", "Miscellaneous", "Income"] := by
  refine ⟨?_, ?_, ?_, rfl⟩
  · intro h
    unfold Config.SetBaseConfig
    rw [h]
  · intro d h
    unfold Config.SetBaseConfig
    rw [h]
    cases hcat : d.Categories with
    | nil =>
      by_cases hcur : d.Currency = "" <;>
        by_cases hsd : 1 ≤ d.StartDate ∧ d.StartDate ≤ 31 <;> simp [hcat, hcur, hsd]
    | cons x xs =>
      by_cases hcur : d.Currency = "" <;>
        by_cases hsd : 1 ≤ d.StartDate ∧ d.StartDate ≤ 31 <;> simp [hcat, hcur, hsd]
  · rfl

/-- Witness of C12: without a document a used configuration is reset to the hardcoded
defaults, and a document whose start day is 45 gives the start day 1. -/
theorem SetBaseConfig_merge_witness :
    usedConfig.SetBaseConfig noFiles sampleUnmarshal = ⟨defaultCategories, "usd", 1, []⟩ ∧
      (usedConfig.SetBaseConfig (oneFile "../user-defaults.json" "\x7b\"startDate\": 45\x7d")
        sampleUnmarshal).StartDate = 1 :=
  ⟨(SetBaseConfig_merge usedConfig noFiles sampleUnmarshal).1 (by decide),
    ((SetBaseConfig_merge usedConfig
      (oneFile "../user-defaults.json" "\x7b\"startDate\": 45\x7d") sampleUnmarshal).2.1
      ⟨[], "", 45, ""⟩ (by decide)).symm ▸ (by decide)⟩

/-- Counterexample to C13 as stated: with a malformed `user-defaults.json` in the current
directory `LoadUserDefaults` returns the wrapped parse error, and `SetBaseConfig` leaves
exactly the configuration it leaves when no document exists at all. -/
theorem SetBaseConfig_malformed_silent :
    LoadUserDefaults (oneFile "user-defaults.json" "oops") sampleUnmarshal =
        (none, some ("failed to parse user-defaults.json: " ++
          "invalid character 'o' looking for beginning of value")) ∧
      usedConfig.SetBaseConfig (oneFile "user-defaults.json" "oops") sampleUnmarshal =
        usedConfig.SetBaseConfig noFiles sampleUnmarshal := by
  decide

/-- C13, amended: when the first readable candidate file fails to parse, `LoadUserDefaults`
returns no document and the parse error wrapped behind the text
`failed to parse user-defaults.json: `; `SetBaseConfig`, which returns nothing, then leaves the
hardcoded defaults. -/
theorem LoadUserDefaults_malformed (c : Config) (readFile : String → Option String)
    (unmarshal : String → Except String UserDefaults) (data err : String)
    (hfound : userDefaultsPaths.findSome? readFile = some data)
    (hbad : unmarshal data = Except.error err) :
    LoadUserDefaults readFile unmarshal =
        (none, some ("failed to parse user-defaults.json: " ++ err)) ∧
      c.SetBaseConfig readFile unmarshal = ⟨defaultCategories, "usd", 1, []⟩ := by
  have hload : LoadUserDefaults readFile unmarshal =
      (none, some ("failed to parse user-defaults.json: " ++ err)) := by
    unfold LoadUserDefaults
    rw [hfound]
    simp only [hbad]
  refine ⟨hload, ?_⟩
  unfold Config.SetBaseConfig
  rw [hload]

/-- Witness of C13, amended: a malformed document two directories up. -/
theorem LoadUserDefaults_malformed_witness :
    LoadUserDefaults (oneFile "../../user-defaults.json" "oops") sampleUnmarshal =
        (none, some ("failed to parse user-defaults.json: " ++
          "invalid character 'o' looking for beginning of value")) ∧
      usedConfig.SetBaseConfig (oneFile "../../user-defaults.json" "oops") sampleUnmarshal =
        ⟨defaultCategories, "usd", 1, []⟩ :=
  LoadUserDefaults_malformed usedConfig (oneFile "../../user-defaults.json" "oops")
    sampleUnmarshal "oops" "invalid character 'o' looking for beginning of value" (by decide)
    (by rfl)

/-- C14: `SetStorageConfig` sets `StorageType` to `postgres` when `STORAGE_TYPE` is exactly
`postgres` and to `json` otherwise, `StorageURL` to `data` when `STORAGE_URL` is empty and to
its value otherwise, `StorageSSL` to the value of `STORAGE_SSL` when it is one of `disable`,
`require`, `verify-full`, `verify-ca` and to `disable` otherwise, and `StorageUser` and
`StoragePass` to the values of `STORAGE_USER` and `STORAGE_PASS`; with nothing set the result is
`json`, `data`, `disable` and two empty strings. -/
theorem SetStorageConfig_spec (c : SystemConfig) (getenv : String → String) :
    (c.SetStorageConfig getenv).StorageType =
      (if getenv "STORAGE_TYPE" = "postgres" then "postgres" else "json") ∧
    (c.SetStorageConfig getenv).StorageURL =
      (if getenv "STORAGE_URL" = "" then "data" else getenv "STORAGE_URL") ∧
    (c.SetStorageConfig getenv).StorageSSL =
      (if getenv "STORAGE_SSL" ∈ ["disable", "require", "verify-full", "verify-ca"] then
        getenv "STORAGE_SSL" else "disable") ∧
    (c.SetStorageConfig getenv).StorageUser = getenv "STORAGE_USER" ∧
    (c.SetStorageConfig getenv).StoragePass = getenv "STORAGE_PASS" ∧
    c.SetStorageConfig emptyEnv = ⟨"data", "json", "", "", "disable"⟩ := by
  refine ⟨?_, ?_, ?_, rfl, rfl, ?_⟩
  · show backendTypeFromEnv (getenv "STORAGE_TYPE") = _
    unfold backendTypeFromEnv BackendTypeJSON BackendTypePostgres
    by_cases h1 : getenv "STORAGE_TYPE" = "json"
    · rw [h1]; decide
    · by_cases h2 : getenv "STORAGE_TYPE" = "postgres" <;> simp [h1, h2]
  · rfl
  · show backendSSLFromEnv (getenv "STORAGE_SSL") = _
    unfold backendSSLFromEnv
    simp only [List.mem_cons, List.mem_singleton, List.not_mem_nil, or_false]
  · rfl

/-- C15: for every environment the `StorageType` set by `SetStorageConfig` is `json` or
`postgres`, and `InitializeStorage` returns what the PostgreSQL constructor returns when
`STORAGE_TYPE` is `postgres` and what the JSON constructor returns otherwise, whatever the two
constructors are: the `invalid data store` result is never produced. -/
theorem InitializeStorage_dispatch (c : SystemConfig) (getenv : String → String) :
    ((c.SetStorageConfig getenv).StorageType = BackendTypeJSON ∨
      (c.SetStorageConfig getenv).StorageType = BackendTypePostgres) ∧
    (∀ (σ : Type) (jsonStore postgresStore : SystemConfig → Option σ × Option String),
      InitializeStorage getenv jsonStore postgresStore =
        if getenv "STORAGE_TYPE" = "postgres" then
          postgresStore ((⟨"", "", "", "", ""⟩ : SystemConfig).SetStorageConfig getenv)
        else jsonStore ((⟨"", "", "", "", ""⟩ : SystemConfig).SetStorageConfig getenv)) := by
  have htype : ∀ c : SystemConfig, (c.SetStorageConfig getenv).StorageType =
      backendTypeFromEnv (getenv "STORAGE_TYPE") := fun _ => rfl
  have hcases : backendTypeFromEnv (getenv "STORAGE_TYPE") =
      (if getenv "STORAGE_TYPE" = "postgres" then BackendTypePostgres else BackendTypeJSON) := by
    unfold backendTypeFromEnv
    by_cases h1 : getenv "STORAGE_TYPE" = "json"
    · rw [h1]; decide
    · by_cases h2 : getenv "STORAGE_TYPE" = "postgres" <;> simp [h1, h2]
  have hne : BackendTypePostgres ≠ BackendTypeJSON := by decide
  constructor
  · rw [htype, hcases]
    by_cases h2 : getenv "STORAGE_TYPE" = "postgres" <;> simp [h2]
  · intro σ jsonStore postgresStore
    unfold InitializeStorage
    simp only [htype, hcases]
    by_cases h2 : getenv "STORAGE_TYPE" = "postgres" <;> simp [h2, hne]

/-! ## Further claims on the validators -/

/-- C16: whether it succeeds or fails, `Expense.Validate` leaves `ID`, `RecurringID`,
`Category`, `Amount`, `Currency` and `Date` as they were, and `RecurringExpense.Validate`
leaves `ID`, `Category`, `Amount`, `Currency`, `StartDate`, `Interval` and `Occurrences` as
they were; the category ` Food* ` is accepted and kept verbatim. -/
theorem Validate_frame (U : UnicodeTables) (e : Expense) (r : RecurringExpense) :
    ((Expense.Validate U e).1.ID = e.ID ∧ (Expense.Validate U e).1.RecurringID = e.RecurringID ∧
      (Expense.Validate U e).1.Category = e.Category ∧
      (Expense.Validate U e).1.Amount = e.Amount ∧
      (Expense.Validate U e).1.Currency = e.Currency ∧ (Expense.Validate U e).1.Date = e.Date) ∧
    ((RecurringExpense.Validate U r).1.ID = r.ID ∧
      (RecurringExpense.Validate U r).1.Category = r.Category ∧
      (RecurringExpense.Validate U r).1.Amount = r.Amount ∧
      (RecurringExpense.Validate U r).1.Currency = r.Currency ∧
      (RecurringExpense.Validate U r).1.StartDate = r.StartDate ∧
      (RecurringExpense.Validate U r).1.Interval = r.Interval ∧
      (RecurringExpense.Validate U r).1.Occurrences = r.Occurrences) ∧
    ((Expense.Validate U rawCategory).2 = none ∧
      (Expense.Validate U rawCategory).1.Category = " Food* ") := by
  refine ⟨?_, ?_, ?_⟩
  rotate_left 2
  · have hn : SanitizeString U rawCategory.Name ≠ "" := by
      rw [SanitizeString_ascii U _ (by decide)]
      decide
    rw [Expense_Validate_eq U rawCategory hn (by decide) (by decide)]
    exact ⟨rfl, rfl⟩
  · by_cases hn : SanitizeString U e.Name = ""
    · simp [Expense.Validate, hn]
    · by_cases hc : e.Category = ""
      · simp [Expense.Validate, hn, hc]
      · by_cases ha : e.Amount.eqZero = true
        · simp [Expense.Validate, hn, hc, ha]
        · rw [Expense_Validate_eq U e hn hc (by simpa using ha)]
          simp
  · by_cases hn : SanitizeString U r.Name = ""
    · simp [RecurringExpense.Validate, hn]
    · by_cases hc : r.Category = ""
      · simp [RecurringExpense.Validate, hn, hc]
      · rw [RecurringExpense_Validate_eq U r hn hc]
        simp

/-- C17: `Expense.Validate` reports the first failing check in the order name, category,
amount, date. -/
theorem Expense_Validate_first_error (U : UnicodeTables) (e : Expense) :
    (SanitizeString U e.Name = "" →
      (Expense.Validate U e).2 = some "expense 'name' cannot be empty") ∧
    (SanitizeString U e.Name ≠ "" → e.Category = "" →
      (Expense.Validate U e).2 = some "expense 'category' cannot be empty") ∧
    (SanitizeString U e.Name ≠ "" → e.Category ≠ "" → e.Amount.eqZero = true →
      (Expense.Validate U e).2 = some "expense 'amount' cannot be 0") ∧
    (SanitizeString U e.Name ≠ "" → e.Category ≠ "" → e.Amount.eqZero = false →
      e.Date.IsZero = true →
      (Expense.Validate U e).2 = some "expense 'date' cannot be empty") := by
  refine ⟨?_, ?_, ?_, ?_⟩
  · intro hn
    simp [Expense.Validate, hn]
  · intro hn hc
    simp [Expense.Validate, hn, hc]
  · intro hn hc ha
    simp [Expense.Validate, hn, hc, ha]
  · intro hn hc ha hd
    rw [Expense_Validate_eq U e hn hc ha]
    simp [hd]

/-- Witness of C17: an expense with a valid name, an empty category, a zero amount and the
zero date gets the category error, and a nameless one gets the name error. -/
theorem Expense_Validate_first_error_witness :
    (Expense.Validate asciiTables manyFaults).2 = some "expense 'category' cannot be empty" ∧
      (Expense.Validate asciiTables namelessZero).2 = some "expense 'name' cannot be empty" :=
  ⟨(Expense_Validate_first_error asciiTables manyFaults).2.1 (by decide) (by decide),
    (Expense_Validate_first_error asciiTables namelessZero).1 (by decide)⟩

/-- C18: when `Expense.Validate` accepts an expense, validating the record it leaves behind
succeeds again and leaves that record unchanged; the same holds for
`RecurringExpense.Validate`. -/
theorem Validate_idempotent (U : UnicodeTables) (e : Expense) (r : RecurringExpense) :
    ((Expense.Validate U e).2 = none →
      Expense.Validate U (Expense.Validate U e).1 = ((Expense.Validate U e).1, none)) ∧
    ((RecurringExpense.Validate U r).2 = none →
      RecurringExpense.Validate U (RecurringExpense.Validate U r).1 =
        ((RecurringExpense.Validate U r).1, none)) := by
  constructor
  · intro hok
    by_cases hn : SanitizeString U e.Name = ""
    · simp [Expense.Validate, hn] at hok
    by_cases hc : e.Category = ""
    · simp [Expense.Validate, hn, hc] at hok
    by_cases ha : e.Amount.eqZero = true
    · simp [Expense.Validate, hn, hc, ha] at hok
    have ha' : e.Amount.eqZero = false := by simpa using ha
    rw [Expense_Validate_eq U e hn hc ha'] at hok ⊢
    dsimp only at hok ⊢
    by_cases hd : e.Date.IsZero = true
    · simp [hd] at hok
    have key := Expense_Validate_eq U
      { e with Name := SanitizeString U e.Name, Tags := cleanTags U e.Tags }
      (by simpa [SanitizeString_fix] using hn) hc ha'
    rw [key]
    simp [hd, SanitizeString_fix, cleanTags_fix]
  · intro hok
    by_cases hn : SanitizeString U r.Name = ""
    · simp [RecurringExpense.Validate, hn] at hok
    by_cases hc : r.Category = ""
    · simp [RecurringExpense.Validate, hn, hc] at hok
    rw [RecurringExpense_Validate_eq U r hn hc] at hok ⊢
    dsimp only at hok ⊢
    by_cases ho : r.Occurrences < 2
    · simp [ho] at hok
    by_cases hd : r.StartDate.IsZero = true
    · simp [ho, hd] at hok
    by_cases hi : validIntervalsAt r.Interval = true
    · have key := RecurringExpense_Validate_eq U
        { r with Name := SanitizeString U r.Name, Tags := cleanTags U r.Tags }
        (by simpa [SanitizeString_fix] using hn) hc
      rw [key]
      simp [ho, hd, hi, SanitizeString_fix, cleanTags_fix]
    · simp [ho, hd, hi] at hok

/-- Witness of C18: the accepted refund and the accepted rent template are left unchanged by
a second validation, with the name and the tags of the first one. -/
theorem Validate_idempotent_witness :
    Expense.Validate asciiTables (Expense.Validate asciiTables rawCategory).1 =
        ((Expense.Validate asciiTables rawCategory).1, none) ∧
      (Expense.Validate asciiTables rawCategory).1.Name = "Lunch" ∧
      (Expense.Validate asciiTables rawCategory).1.Tags = ["x"] ∧
      RecurringExpense.Validate asciiTables
          (RecurringExpense.Validate asciiTables (rentTemplate "monthly" 12)).1 =
        ((RecurringExpense.Validate asciiTables (rentTemplate "monthly" 12)).1, none) :=
  ⟨(Validate_idempotent asciiTables rawCategory (rentTemplate "monthly" 12)).1 (by decide),
    by decide, by decide,
    (Validate_idempotent asciiTables rawCategory (rentTemplate "monthly" 12)).2 (by decide)⟩

/-! ## Further lemmas on the sanitiser -/

theorem isKept_of_isSpace {U : UnicodeTables} (c : Char) (h : isSpace c = true) :
    isKept U c = false := by
  have h1 := U.letter_not_space c h
  have h2 := U.number_not_space c h
  have h3 := isAllowedPunct_of_isSpace c h
  simp [isKept, h1, h2, h3]

theorem isKept_space {U : UnicodeTables} : isKept U ' ' = false :=
  isKept_of_isSpace ' ' isSpace_space

theorem isKept_of_isInvalidChar {U : UnicodeTables} (c : Char)
    (h : isInvalidChar U c = true) : isKept U c = false := by
  unfold isInvalidChar at h
  unfold isKept
  simp only [Bool.not_eq_true', Bool.or_eq_false_iff] at h ⊢
  exact ⟨⟨h.1.1.1, h.1.1.2⟩, h.2⟩

theorem filter_isKept_replaceInvalid {U : UnicodeTables} (l : List Char) :
    (replaceInvalid U l).filter (isKept U) = l.filter (isKept U) := by
  unfold replaceInvalid
  induction l with
  | nil => rfl
  | cons a as ih =>
    by_cases ha : isInvalidChar U a = true
    · simp [List.filter_cons, ha, isKept_space, isKept_of_isInvalidChar a ha, ih]
    · simp [List.filter_cons, ha, ih]

theorem filter_isKept_collapseAux {U : UnicodeTables} (b : Bool) (l : List Char) :
    (collapseAux b l).filter (isKept U) = l.filter (isKept U) := by
  induction l generalizing b with
  | nil => simp [collapseAux]
  | cons a as ih =>
    by_cases ha : isPerlSpace a = true
    · have hk := @isKept_of_isSpace U a (isSpace_of_isPerlSpace a ha)
      cases b <;> simp [collapseAux, ha, List.filter_cons, hk, isKept_space, ih]
    · simp [collapseAux, ha, List.filter_cons, ih]

theorem filter_isKept_dropWhile {U : UnicodeTables} (l : List Char) :
    (l.dropWhile isSpace).filter (isKept U) = l.filter (isKept U) := by
  induction l with
  | nil => rfl
  | cons a as ih =>
    by_cases ha : isSpace a = true
    · simp [List.dropWhile_cons, ha, List.filter_cons, isKept_of_isSpace a ha, ih]
    · simp [List.dropWhile_cons, ha]

theorem filter_isKept_TrimSpace {U : UnicodeTables} (l : List Char) :
    (TrimSpace l).filter (isKept U) = l.filter (isKept U) := by
  unfold TrimSpace List.rdropWhile
  rw [List.filter_reverse, filter_isKept_dropWhile, ← List.filter_reverse, List.reverse_reverse,
    filter_isKept_dropWhile]

theorem allowed_facts {U : UnicodeTables} (c : Char)
    (h : U.isLetter c = true ∨ U.isNumber c = true ∨ c = ' ' ∨ isAllowedPunct c = true) :
    isInvalidChar U c = false ∧ (isSpace c = true → c = ' ') := by
  constructor
  · rcases h with h | h | h | h
    · simp [isInvalidChar, h]
    · simp [isInvalidChar, h]
    · rw [h]; exact isInvalidChar_space
    · simp [isInvalidChar, h]
  · intro hs
    rcases h with h | h | h | h
    · have := U.letter_not_space c hs
      simp [this] at h
    · have := U.number_not_space c hs
      simp [this] at h
    · exact h
    · simp [isAllowedPunct_of_isSpace c hs] at h

theorem chain_of_no_double_space (l : List Char) (h : ¬ [' ', ' '] <:+: l) :
    List.Chain' NotBothSpaces l := by
  induction l with
  | nil => exact List.chain'_nil
  | cons a t ih =>
    rw [List.chain'_cons']
    constructor
    · intro y hy hab
      cases t with
      | nil => simp at hy
      | cons b t' =>
        simp only [List.head?_cons, Option.mem_def, Option.some.injEq] at hy
        subst hy
        exact h ⟨[], t', by simp [hab.1, hab.2]⟩
    · exact ih fun ⟨u, v, huv⟩ => h ⟨a :: u, v, by simp [← huv]⟩

/-! ## Further claims on `SanitizeString` -/

/-- C19: whatever the Unicode tables `U` of the Go release are, the runes of
`SanitizeString s` other than the space are exactly the runes of `s`
that are letters, numbers or one of the seven punctuation marks, in the same order and with
the same multiplicity. -/
theorem SanitizeString_keeps_allowed (U : UnicodeTables) (s : String) :
    (SanitizeString U s).data.filter (fun c => c ≠ ' ') = s.data.filter (isKept U) := by
  have hcongr : (SanitizeString U s).data.filter (fun c => c ≠ ' ') =
      (SanitizeString U s).data.filter (isKept U) := by
    apply List.filter_congr
    intro c hc
    obtain ⟨h1, h2⟩ := sanitized_mem s.data c hc
    by_cases hsp : c = ' '
    · simp [hsp, isKept_space]
    · have hps : isPerlSpace c = false := by
        cases hp : isPerlSpace c with
        | true => exact absurd (h2 hp) hsp
        | false => rfl
      unfold isInvalidChar at h1
      rw [Bool.not_eq_false_eq_eq_true] at h1
      simp only [hps, Bool.or_false] at h1
      simp [hsp, isKept, h1]
  rw [hcongr]
  show (TrimSpace (collapseSpaces (replaceInvalid U s.data))).filter (isKept U) = _
  rw [filter_isKept_TrimSpace]
  unfold collapseSpaces
  rw [filter_isKept_collapseAux, filter_isKept_replaceInvalid]

/-- C20: whatever the Unicode tables `U` of the Go release are, `SanitizeString s = s` holds
exactly for the strings `s` whose runes are letters,
numbers, spaces or one of the seven punctuation marks, that neither start nor end with a
space and that hold no two adjacent spaces. -/
theorem SanitizeString_eq_self_iff (U : UnicodeTables) (s : String) :
    SanitizeString U s = s ↔
      ((∀ c ∈ s.data,
          U.isLetter c = true ∨ U.isNumber c = true ∨ c = ' ' ∨ isAllowedPunct c = true) ∧
        s.data.head? ≠ some ' ' ∧ s.data.getLast? ≠ some ' ' ∧ ¬ [' ', ' '] <:+: s.data) := by
  constructor
  · intro h
    have hd : TrimSpace (collapseSpaces (replaceInvalid U s.data)) = s.data :=
      congrArg String.data h
    have hmem := @sanitized_mem U s.data
    have hchain := @sanitized_chain U s.data
    have hhead := head_TrimSpace (collapseSpaces (replaceInvalid U s.data))
    have hlast := getLast_TrimSpace (collapseSpaces (replaceInvalid U s.data))
    rw [hd] at hmem hchain hhead hlast
    refine ⟨?_, ?_, ?_, no_double_space_of_chain _ hchain⟩
    · intro c hc
      obtain ⟨h1, h2⟩ := hmem c hc
      unfold isInvalidChar at h1
      rw [Bool.not_eq_false_eq_eq_true] at h1
      simp only [Bool.or_eq_true] at h1
      rcases h1 with ((h | h) | h) | h
      · exact Or.inl h
      · exact Or.inr (Or.inl h)
      · exact Or.inr (Or.inr (Or.inl (h2 h)))
      · exact Or.inr (Or.inr (Or.inr h))
    · intro hh
      have := hhead _ hh
      simp [isSpace_space] at this
    · intro hh
      have := hlast _ hh
      simp [isSpace_space] at this
  · rintro ⟨hall, hhead, hlast, hadj⟩
    have hfix := sanitize_eq_self s.data
      (fun c hc => ⟨(allowed_facts c (hall c hc)).1,
        fun hp => (allowed_facts c (hall c hc)).2 (isSpace_of_isPerlSpace c hp)⟩)
      (chain_of_no_double_space _ hadj)
      (fun c hc => by
        cases hs : isSpace c with
        | false => rfl
        | true =>
          have hmem : c ∈ s.data := List.mem_of_mem_head? hc
          exact absurd ((allowed_facts c (hall c hmem)).2 hs ▸ hc) hhead)
      (fun c hc => by
        cases hs : isSpace c with
        | false => rfl
        | true =>
          have hmem : c ∈ s.data := List.mem_of_mem_getLast? hc
          exact absurd ((allowed_facts c (hall c hmem)).2 hs ▸ hc) hlast)
    unfold SanitizeString
    rw [hfix]

/-- Witness of C20: the clean text `Food Drink!!` is a fixed point, and the text `Food  Drink`
with two adjacent spaces is not. -/
theorem SanitizeString_eq_self_iff_witness :
    SanitizeString asciiTables "Food Drink!!" = "Food Drink!!" ∧
      SanitizeString asciiTables "Food  Drink" ≠ "Food  Drink" :=
  ⟨(SanitizeString_eq_self_iff asciiTables "Food Drink!!").2
      ⟨by decide, by decide, by decide, by decide⟩,
    fun h => ((SanitizeString_eq_self_iff asciiTables "Food  Drink").1 h).2.2.2 (by decide)⟩

end Storage
